import Mathlib

/-!
Verification of the RopeMackMemories photo-editing app (src/App.tsx and
components) against its natural-language specification.

The React component state relevant to the spec is embedded shallowly:
the `history : File[]` / `historyIndex : number` pair becomes `HistState`,
each `useCallback` handler becomes a pure state-transition function, and
JavaScript `Array.prototype.slice` / `Math.round` / `atob` semantics are
modelled explicitly.  Displayed/native pixel coordinates are rationals
(JS numbers are not floats here; the spec's claims are about the exact
arithmetic the code writes down).
-/

namespace RopeMack

/-- The edit-history state of `App`: the `history` array of image files and
the `historyIndex` current-position index (a JS number, `-1` when empty).
The artifact type is abstract (`File` objects are opaque blobs here). -/
structure HistState (α : Type) where
  history : List α
  historyIndex : Int
  deriving Repr, DecidableEq

/-- JavaScript `l.slice(0, e)`: a negative end index counts from the end of
the array, and the result is clamped to the array bounds. -/
def jsSliceTo {α : Type} (l : List α) (e : Int) : List α :=
  if e < 0 then l.take (((l.length : Int) + e).toNat) else l.take e.toNat

/-- `addImageToHistory` (src/App.tsx:90-98): truncate the array at
`historyIndex + 1` with `slice`, push the new file, and point
`historyIndex` at the new last element. -/
def addImageToHistory {α : Type} (newImageFile : α) (s : HistState α) :
    HistState α :=
  let newHistory := jsSliceTo s.history (s.historyIndex + 1) ++ [newImageFile]
  { history := newHistory, historyIndex := (newHistory.length : Int) - 1 }

/-- `handleImageUpload` (src/App.tsx:100-109): replace the whole history
with the single uploaded file at position 0. -/
def handleImageUpload {α : Type} (file : α) (_s : HistState α) : HistState α :=
  { history := [file], historyIndex := 0 }

/-- The successful branch of `handleCreateMemory` (src/App.tsx:111-131):
after the service returns, the history is replaced by the single generated
file at position 0 (the failure branch leaves the history untouched). -/
def handleCreateMemorySuccess {α : Type} (newImageFile : α)
    (_s : HistState α) : HistState α :=
  { history := [newImageFile], historyIndex := 0 }

/-- `canUndo` (src/App.tsx:87). -/
def canUndo {α : Type} (s : HistState α) : Bool :=
  decide (0 < s.historyIndex)

/-- `canRedo` (src/App.tsx:88): `historyIndex < history.length - 1`. -/
def canRedo {α : Type} (s : HistState α) : Bool :=
  decide (s.historyIndex < (s.history.length : Int) - 1)

/-- `handleUndo` (src/App.tsx:287-293). -/
def handleUndo {α : Type} (s : HistState α) : HistState α :=
  if canUndo s then { s with historyIndex := s.historyIndex - 1 } else s

/-- `handleRedo` (src/App.tsx:295-301). -/
def handleRedo {α : Type} (s : HistState α) : HistState α :=
  if canRedo s then { s with historyIndex := s.historyIndex + 1 } else s

/-- `handleReset` (src/App.tsx:303-310): jump to position 0 when the
history is non-empty; the array itself is not modified. -/
def handleReset {α : Type} (s : HistState α) : HistState α :=
  if 0 < s.history.length then { s with historyIndex := 0 } else s

/-- `handleUploadNew` (src/App.tsx:312-319): clear the history. -/
def handleUploadNew {α : Type} (_s : HistState α) : HistState α :=
  { history := [], historyIndex := -1 }

/-- `currentImage` (src/App.tsx:58): `history[historyIndex] ?? null`; a
negative JS array index reads `undefined`. -/
def currentImage {α : Type} (s : HistState α) : Option α :=
  if s.historyIndex < 0 then none else s.history[s.historyIndex.toNat]?

/-- The history operations the UI can perform, as used by claim C1:
upload, append of a new artifact (edit / filter / adjustment / crop
result), undo, redo, reset, upload-new (clear), and a successful
create-memory. -/
inductive HistOp (α : Type) where
  | upload (f : α)
  | append (f : α)
  | undo
  | redo
  | reset
  | uploadNew
  | createMemory (f : α)
  deriving Repr, DecidableEq

/-- Dispatch one history operation to its handler. -/
def histStep {α : Type} (s : HistState α) : HistOp α → HistState α
  | .upload f => handleImageUpload f s
  | .append f => addImageToHistory f s
  | .undo => handleUndo s
  | .redo => handleRedo s
  | .reset => handleReset s
  | .uploadNew => handleUploadNew s
  | .createMemory f => handleCreateMemorySuccess f s

/-- The initial state of `App`: `useState<File[]>([])`,
`useState<number>(-1)` (src/App.tsx:39-40). -/
def initHist (α : Type) : HistState α :=
  { history := [], historyIndex := -1 }

/-- Run a sequence of history operations from the initial empty state. -/
def runHist {α : Type} (ops : List (HistOp α)) : HistState α :=
  List.foldl histStep (initHist α) ops

/-- The spec's history invariant: the position index is `-1` exactly when
the artifact sequence is empty, and otherwise lies in `[0, length-1]`. -/
def HistWF {α : Type} (s : HistState α) : Prop :=
  (s.history = [] ∧ s.historyIndex = -1) ∨
    (s.history ≠ [] ∧ 0 ≤ s.historyIndex ∧
      s.historyIndex ≤ (s.history.length : Int) - 1)

/-- The invariant, restated over the list length so that `omega` can
discharge each preservation case. -/
theorem histWF_iff {α : Type} (s : HistState α) :
    HistWF s ↔ ((s.history.length = 0 ∧ s.historyIndex = -1) ∨
      (0 < s.history.length ∧ 0 ≤ s.historyIndex ∧
        s.historyIndex ≤ (s.history.length : Int) - 1)) := by
  unfold HistWF
  rw [← List.length_eq_zero, ← List.length_pos]

theorem histWF_init (α : Type) : HistWF (initHist α) := by
  left; exact ⟨rfl, rfl⟩

theorem histWF_addImage {α : Type} (f : α) (s : HistState α) :
    HistWF (addImageToHistory f s) := by
  rw [histWF_iff]
  have e1 : (addImageToHistory f s).history.length =
      (jsSliceTo s.history (s.historyIndex + 1)).length + 1 := by
    simp [addImageToHistory]
  have e2 : (addImageToHistory f s).historyIndex =
      ((addImageToHistory f s).history.length : Int) - 1 := by
    simp [addImageToHistory]
  omega

theorem histWF_undo {α : Type} {s : HistState α} (hs : HistWF s) :
    HistWF (handleUndo s) := by
  rw [histWF_iff] at hs ⊢
  have e1 : (handleUndo s).history = s.history := by
    unfold handleUndo; split <;> rfl
  rw [e1]
  by_cases h : 0 < s.historyIndex
  · have e2 : (handleUndo s).historyIndex = s.historyIndex - 1 := by
      simp [handleUndo, canUndo, h]
    omega
  · have e2 : (handleUndo s).historyIndex = s.historyIndex := by
      simp [handleUndo, canUndo, h]
    omega

theorem histWF_redo {α : Type} {s : HistState α} (hs : HistWF s) :
    HistWF (handleRedo s) := by
  rw [histWF_iff] at hs ⊢
  have e1 : (handleRedo s).history = s.history := by
    unfold handleRedo; split <;> rfl
  rw [e1]
  by_cases h : s.historyIndex < (s.history.length : Int) - 1
  · have e2 : (handleRedo s).historyIndex = s.historyIndex + 1 := by
      simp [handleRedo, canRedo, h]
    omega
  · have e2 : (handleRedo s).historyIndex = s.historyIndex := by
      simp [handleRedo, canRedo, h]
    omega

theorem histWF_reset {α : Type} {s : HistState α} (hs : HistWF s) :
    HistWF (handleReset s) := by
  rw [histWF_iff] at hs ⊢
  have e1 : (handleReset s).history = s.history := by
    unfold handleReset; split <;> rfl
  rw [e1]
  by_cases h : 0 < s.history.length
  · have e2 : (handleReset s).historyIndex = 0 := by
      simp [handleReset, h]
    omega
  · have e2 : (handleReset s).historyIndex = s.historyIndex := by
      simp [handleReset, h]
    omega

theorem histWF_step {α : Type} {s : HistState α} (hs : HistWF s)
    (op : HistOp α) : HistWF (histStep s op) := by
  cases op with
  | upload f => right; simp [histStep, handleImageUpload]
  | append f => exact histWF_addImage f s
  | createMemory f => right; simp [histStep, handleCreateMemorySuccess]
  | undo => exact histWF_undo hs
  | redo => exact histWF_redo hs
  | reset => exact histWF_reset hs
  | uploadNew => left; simp [histStep, handleUploadNew]

theorem histWF_foldl {α : Type} (ops : List (HistOp α)) :
    ∀ s : HistState α, HistWF s → HistWF (List.foldl histStep s ops) := by
  induction ops with
  | nil => intro s hs; simpa using hs
  | cons op rest ih =>
      intro s hs
      simpa using ih (histStep s op) (histWF_step hs op)

/-- Claim C1: for every sequence of history operations starting from the
empty history, the position index is in `[0, length-1]` when the artifact
sequence is non-empty, and exactly `-1` when it is empty. -/
theorem history_position_invariant {α : Type} (ops : List (HistOp α)) :
    ((runHist ops).history = [] → (runHist ops).historyIndex = -1) ∧
    ((runHist ops).history ≠ [] →
      0 ≤ (runHist ops).historyIndex ∧
        (runHist ops).historyIndex ≤ ((runHist ops).history.length : Int) - 1) := by
  have h := histWF_foldl ops (initHist α) (histWF_init α)
  rcases h with ⟨h1, h2⟩ | ⟨h1, h2, h3⟩
  · exact ⟨fun _ => h2, fun hne => absurd h1 hne⟩
  · exact ⟨fun he => absurd he h1, fun _ => ⟨h2, h3⟩⟩

/-- Claim C1 witness: the invariant instantiated on a concrete operation
sequence (upload, append, undo, append). -/
theorem history_position_invariant_witness :
    (runHist [HistOp.upload 1, HistOp.append 2, HistOp.undo,
        HistOp.append 3]).history ≠ [] ∧
    0 ≤ (runHist [HistOp.upload 1, HistOp.append 2, HistOp.undo,
        HistOp.append (3 : Nat)]).historyIndex := by
  refine ⟨by decide, ?_⟩
  exact (history_position_invariant
    [HistOp.upload 1, HistOp.append 2, HistOp.undo,
      HistOp.append (3 : Nat)]).2 (by decide) |>.1

/-- `jsSliceTo` with a non-negative end index is an ordinary prefix. -/
theorem jsSliceTo_nonneg {α : Type} (l : List α) (e : Int) (he : 0 ≤ e) :
    jsSliceTo l e = l.take e.toNat := by
  unfold jsSliceTo
  rw [if_neg (by omega)]

/-- Claim C2: appending a new artifact to a well-formed history keeps
exactly the first `historyIndex + 1` elements (discarding any redo tail),
appends the new artifact as the last element, and moves the position to
its index, the new end of the sequence. -/
theorem append_truncates_redo_tail {α : Type} (f : α) (s : HistState α)
    (hs : HistWF s) :
    (addImageToHistory f s).history =
      s.history.take (s.historyIndex + 1).toNat ++ [f] ∧
    (addImageToHistory f s).historyIndex =
      ((addImageToHistory f s).history.length : Int) - 1 ∧
    (addImageToHistory f s).history.getLast? = some f := by
  have hge : 0 ≤ s.historyIndex + 1 := by
    rcases hs with ⟨_, h⟩ | ⟨_, h, _⟩ <;> omega
  refine ⟨?_, ?_, ?_⟩
  · simp [addImageToHistory, jsSliceTo_nonneg s.history _ hge]
  · simp [addImageToHistory]
  · simp [addImageToHistory]

/-- Claim C2 witness: appending 99 to history `[10, 20, 30]` at position 0
discards the redo tail `[20, 30]` and lands at position 1. -/
theorem append_truncates_redo_tail_witness :
    (addImageToHistory 99 (⟨[10, 20, 30], 0⟩ : HistState Nat)).history =
      [10, 99] ∧
    (addImageToHistory 99 (⟨[10, 20, 30], 0⟩ : HistState Nat)).historyIndex
      = 1 := by
  have h := append_truncates_redo_tail (99 : Nat)
    (⟨[10, 20, 30], 0⟩ : HistState Nat) (Or.inr (by decide))
  constructor
  · rw [h.1]; rfl
  · rw [h.2.1]; rfl

/-- Claim C3: undo decrements the position by one exactly when it is
positive and is otherwise a no-op; redo increments it by one exactly when
it is below `length - 1` and is otherwise a no-op; neither changes the
artifact sequence, and on a well-formed non-empty history neither moves
the position outside `[0, length-1]`. -/
theorem undo_redo_behavior {α : Type} (s : HistState α) :
    (handleUndo s).history = s.history ∧
    (handleRedo s).history = s.history ∧
    (0 < s.historyIndex →
      (handleUndo s).historyIndex = s.historyIndex - 1) ∧
    (¬ 0 < s.historyIndex →
      (handleUndo s).historyIndex = s.historyIndex) ∧
    (s.historyIndex < (s.history.length : Int) - 1 →
      (handleRedo s).historyIndex = s.historyIndex + 1) ∧
    (¬ s.historyIndex < (s.history.length : Int) - 1 →
      (handleRedo s).historyIndex = s.historyIndex) ∧
    (HistWF s → s.history ≠ [] →
      (0 ≤ (handleUndo s).historyIndex ∧
        (handleUndo s).historyIndex ≤ (s.history.length : Int) - 1) ∧
      (0 ≤ (handleRedo s).historyIndex ∧
        (handleRedo s).historyIndex ≤ (s.history.length : Int) - 1)) := by
  have hu : (handleUndo s).history = s.history := by
    unfold handleUndo; split <;> rfl
  have hr : (handleRedo s).history = s.history := by
    unfold handleRedo; split <;> rfl
  refine ⟨hu, hr, ?_, ?_, ?_, ?_, ?_⟩
  · intro h; simp [handleUndo, canUndo, h]
  · intro h; simp [handleUndo, canUndo, h]
  · intro h; simp [handleRedo, canRedo, h]
  · intro h; simp [handleRedo, canRedo, h]
  · intro hwf hne
    have w1 := histWF_undo hwf
    have w2 := histWF_redo hwf
    rw [histWF_iff] at w1 w2
    rw [hu] at w1
    rw [hr] at w2
    have hlen : 0 < s.history.length := List.length_pos.mpr hne
    exact ⟨⟨by omega, by omega⟩, ⟨by omega, by omega⟩⟩

/-- Claim C3 witness: on history `[1, 2]`, undo from position 1 reaches
position 0, and redo from position 0 reaches position 1. -/
theorem undo_redo_behavior_witness :
    (handleUndo (⟨[1, 2], 1⟩ : HistState Nat)).historyIndex = 0 ∧
    (handleRedo (⟨[1, 2], 0⟩ : HistState Nat)).historyIndex = 1 := by
  constructor
  · have h := (undo_redo_behavior (⟨[1, 2], 1⟩ : HistState Nat)).2.2.1
      (by decide)
    rw [h]; decide
  · have h :=
      (undo_redo_behavior (⟨[1, 2], 0⟩ : HistState Nat)).2.2.2.2.1
      (by decide)
    rw [h]; decide

/-- Iterating redo from a position that stays in bounds advances the
position by exactly the number of iterations, without touching the
artifact sequence. -/
theorem redo_iterate {α : Type} (h : List α) (k : Nat) :
    ∀ i : Int, 0 ≤ i → i + k ≤ (h.length : Int) - 1 →
      (handleRedo^[k]) (⟨h, i⟩ : HistState α) = ⟨h, i + k⟩ := by
  induction k with
  | zero => intro i _ _; simp
  | succ n ih =>
      intro i h0 hk
      rw [Function.iterate_succ_apply']
      rw [ih i h0 (by omega)]
      have hc : (i + (n : Int)) < (h.length : Int) - 1 := by omega
      simp only [handleRedo, canRedo]
      rw [if_pos (by simpa using hc)]
      simp
      omega

/-- Claim C9: reset on a non-empty history moves the position to 0 while
leaving the artifact sequence entirely unchanged, and `k` subsequent redos
then reach position `k` with its recorded artifact, for every index `k` of
the sequence — the forward history is not discarded. -/
theorem reset_keeps_forward_history {α : Type} (s : HistState α)
    (hne : s.history ≠ []) :
    (handleReset s).history = s.history ∧
    (handleReset s).historyIndex = 0 ∧
    ∀ k : Nat, k < s.history.length →
      (handleRedo^[k]) (handleReset s) = ⟨s.history, (k : Int)⟩ ∧
      currentImage ((handleRedo^[k]) (handleReset s)) = s.history[k]? := by
  have hlen : 0 < s.history.length := List.length_pos.mpr hne
  have hr : handleReset s = ⟨s.history, 0⟩ := by
    simp [handleReset, hlen]
  refine ⟨by rw [hr], by rw [hr], ?_⟩
  intro k hk
  have hit : (handleRedo^[k]) (handleReset s) = ⟨s.history, (k : Int)⟩ := by
    rw [hr]
    have h2 := redo_iterate s.history k 0 le_rfl (by omega)
    simpa using h2
  refine ⟨hit, ?_⟩
  rw [hit]
  simp [currentImage]

/-- Claim C9 witness: on history `[5, 6, 7]` at position 2, reset reaches
position 0 and two redos recover the artifact 7. -/
theorem reset_keeps_forward_history_witness :
    (handleReset (⟨[5, 6, 7], 2⟩ : HistState Nat)).historyIndex = 0 ∧
    currentImage ((handleRedo^[2])
      (handleReset (⟨[5, 6, 7], 2⟩ : HistState Nat))) = some 7 := by
  have h := reset_keeps_forward_history (⟨[5, 6, 7], 2⟩ : HistState Nat)
    (by decide)
  refine ⟨h.2.1, ?_⟩
  rw [(h.2.2 2 (by decide)).2]
  rfl

/-- Claim C10: uploading a new image and a successful create-memory both
replace the entire history with the one-element sequence holding the new
artifact at position 0, discarding every previously recorded artifact. -/
theorem upload_and_memory_replace_history {α : Type} (f : α)
    (s : HistState α) :
    handleImageUpload f s = ⟨[f], 0⟩ ∧
    handleCreateMemorySuccess f s = ⟨[f], 0⟩ :=
  ⟨rfl, rfl⟩

/-- JavaScript `Math.round`: round half toward positive infinity,
`⌊x + 1/2⌋`. -/
def jsRound (q : ℚ) : Int := ⌊q + 1 / 2⌋

/-- The hotspot computation of `handleImageClick` (src/App.tsx:339-358):
`scaleX = naturalWidth / clientWidth`, `scaleY = naturalHeight /
clientHeight`, and the native coordinates are `Math.round(offset * scale)`
per axis. -/
def handleImageClick (offsetX offsetY naturalWidth naturalHeight
    clientWidth clientHeight : ℚ) : Int × Int :=
  let scaleX := naturalWidth / clientWidth
  let scaleY := naturalHeight / clientHeight
  (jsRound (offsetX * scaleX), jsRound (offsetY * scaleY))

theorem jsRound_le (q : ℚ) : (jsRound q : ℚ) ≤ q + 1 / 2 :=
  Int.floor_le _

theorem lt_jsRound (q : ℚ) : q - 1 / 2 < (jsRound q : ℚ) := by
  have h := Int.sub_one_lt_floor (q + 1 / 2)
  unfold jsRound
  linarith

/-- `jsRound` is a nearest-integer rounding: it is within 1/2 of its
argument. -/
theorem abs_jsRound_sub (q : ℚ) : |(jsRound q : ℚ) - q| ≤ 1 / 2 := by
  have h1 := jsRound_le q
  have h2 := lt_jsRound q
  rw [abs_le]
  constructor <;> linarith

/-- Claim C5: a click at displayed `(dx, dy)` on an image of natural size
`(NW, NH)` displayed at `(CW, CH)` produces the native hotspot
`(round(dx*NW/CW), round(dy*NH/CH))`: each axis is scaled independently by
its own natural/displayed ratio and rounded to the nearest integer (each
coordinate is within 1/2 of the exact scaled value). -/
theorem hotspot_formula (dx dy NW NH CW CH : ℚ) (hW : 0 < CW)
    (hH : 0 < CH) :
    handleImageClick dx dy NW NH CW CH =
      (jsRound (dx * NW / CW), jsRound (dy * NH / CH)) ∧
    |(jsRound (dx * NW / CW) : ℚ) - dx * NW / CW| ≤ 1 / 2 ∧
    |(jsRound (dy * NH / CH) : ℚ) - dy * NH / CH| ≤ 1 / 2 := by
  refine ⟨?_, abs_jsRound_sub _, abs_jsRound_sub _⟩
  unfold handleImageClick
  rw [mul_div_assoc, mul_div_assoc]

/-- Claim C5 witness: a click at (5, 10) on a 200x100 image displayed at
100x50 lands on native pixel (10, 20). -/
theorem hotspot_formula_witness :
    handleImageClick 5 10 200 100 100 50 = (10, 20) := by
  have h := hotspot_formula 5 10 200 100 100 50 (by norm_num) (by norm_num)
  rw [h.1, Prod.mk.injEq]
  constructor <;> norm_num [jsRound]

/-- Claim C8: hotspot scaling is linear and reversible up to rounding: for
a displayed coordinate `d` and positive ratio `s = natural/displayed`,
mapping the native coordinate `round(d*s)` back by dividing by `s`
recovers `d` to within `1/(2s)`, and the rounded scaling map commutes with
addition of displayed inputs up to one native pixel. -/
theorem hotspot_scaling_reversible (d s : ℚ) (hs : 0 < s) :
    |(jsRound (d * s) : ℚ) / s - d| ≤ 1 / (2 * s) ∧
    ∀ a b : ℚ,
      |jsRound (s * (a + b)) - (jsRound (s * a) + jsRound (s * b))| ≤ 1 := by
  constructor
  · have h := abs_jsRound_sub (d * s)
    have hne : s ≠ 0 := ne_of_gt hs
    have e : (jsRound (d * s) : ℚ) / s - d =
        ((jsRound (d * s) : ℚ) - d * s) / s := by
      field_simp
      ring
    rw [e, abs_div, abs_of_pos hs, ← div_div]
    gcongr
  · intro a b
    have h1 := jsRound_le (s * a)
    have h2 := lt_jsRound (s * a)
    have h3 := jsRound_le (s * b)
    have h4 := lt_jsRound (s * b)
    have h5 := jsRound_le (s * (a + b))
    have h6 := lt_jsRound (s * (a + b))
    have hd : s * (a + b) = s * a + s * b := by ring
    have hq : |((jsRound (s * (a + b)) : ℚ) -
        ((jsRound (s * a) : ℚ) + (jsRound (s * b) : ℚ)))| < 2 := by
      rw [abs_lt]
      constructor <;> linarith
    have habs :
        |jsRound (s * (a + b)) - (jsRound (s * a) + jsRound (s * b))| < 2 := by
      exact_mod_cast hq
    omega

/-- Claim C8 witness: with ratio 2, displayed coordinate 3 maps to native 6
and divides back to 3 within 1/4; additivity holds at inputs 1 and 2. -/
theorem hotspot_scaling_reversible_witness :
    |(jsRound (3 * 2) : ℚ) / 2 - 3| ≤ 1 / (2 * 2) ∧
    |jsRound (2 * ((1 : ℚ) + 2)) - (jsRound (2 * 1) + jsRound (2 * 2))| ≤ 1 :=
  ⟨(hotspot_scaling_reversible 3 2 (by norm_num)).1,
    (hotspot_scaling_reversible 3 2 (by norm_num)).2 1 2⟩

/-- A `PixelCrop` from react-image-crop: the completed crop selection
rectangle, in displayed pixels. -/
structure PixelCrop where
  x : ℚ
  y : ℚ
  width : ℚ
  height : ℚ
  deriving Repr, DecidableEq

/-- The `isCropping` prop passed to `CropPanel` (src/App.tsx:515):
`!!completedCrop?.width && completedCrop.width > 0`.  Only the width is
inspected. -/
def isCropping (completedCrop : Option PixelCrop) : Bool :=
  match completedCrop with
  | none => false
  | some c => decide (c.width ≠ 0) && decide (0 < c.width)

/-- The Apply Crop button of `CropPanel` (src/unnamed/part_001): it is
disabled when `isLoading || !isCropping`, so `handleApplyCrop` can only be
triggered while this is `true`. -/
def applyCropEnabled (isLoading : Bool) (completedCrop : Option PixelCrop) :
    Bool :=
  !isLoading && isCropping completedCrop

/-- The four generation actions sharing the API-key gate: localized edit
(`handleGenerate`), filter (`handleApplyFilter`), adjustment
(`handleApplyAdjustment`), and create-memory (`handleCreateMemory`). -/
inductive GenAction where
  | retouch
  | filter
  | adjustment
  | createMemory
  deriving Repr, DecidableEq

/-- An invocation of the external generation service, recording the
credential it was given. -/
inductive GateEvent where
  | serviceCall (key : String) (action : GenAction)
  deriving Repr, DecidableEq

/-- The credential-gating state of `App`: the in-memory `apiKey`
(initialized from sessionStorage), the deferred `pendingAction`, the
key-modal flag, the `user-api-key` entry of sessionStorage, and the
`dad-memory-faces` entry of localStorage (written only by `FaceLibrary` in
src/components/StartScreen.tsx, never by the key flow). -/
structure GateState where
  apiKey : Option String
  pendingAction : Option GenAction
  isApiKeyModalOpen : Bool
  sessionKey : Option String
  localFaces : List String
  deriving Repr, DecidableEq

/-- The gate shared verbatim by all four generation handlers
(src/App.tsx:133-138, 175-180, 205-210, 235-240): without a key, store the
action as pending and open the modal without touching the service; with a
key, run the action against the service at once. -/
def dispatchGenAction (s : GateState) (a : GenAction) :
    GateState × List GateEvent :=
  match s.apiKey with
  | none =>
      ({ s with pendingAction := some a, isApiKeyModalOpen := true }, [])
  | some k => (s, [GateEvent.serviceCall k a])

/-- A character stripped by JavaScript `String.prototype.trim`: the ECMA
WhiteSpace and LineTerminator characters. -/
def jsWhitespace (c : Char) : Bool :=
  c == ' ' || c == '\t' || c == '\n' || c == '\r' || c == '\x0b' ||
  c == '\x0c' || c == '\u00A0' || c == '\uFEFF' || c == '\u1680' ||
  ('\u2000' ≤ c && c ≤ '\u200A') || c == '\u2028' || c == '\u2029' ||
  c == '\u202F' || c == '\u205F' || c == '\u3000'

/-- JavaScript `newApiKey.trim()`: strip leading and trailing whitespace. -/
def jsTrim (s : String) : String :=
  ⟨((s.data.dropWhile jsWhitespace).reverse.dropWhile jsWhitespace).reverse⟩

/-- `handleApiKeySubmit` (src/App.tsx:360-374): a key that trims to empty
is ignored; otherwise the trimmed key is kept in state and written to
sessionStorage, the modal closes, and any pending action runs with the
new key and is cleared. -/
def handleApiKeySubmit (s : GateState) (newApiKey : String) :
    GateState × List GateEvent :=
  let trimmedKey := jsTrim newApiKey
  if trimmedKey = "" then (s, [])
  else
    let s1 : GateState :=
      { s with apiKey := some trimmedKey, sessionKey := some trimmedKey,
               isApiKeyModalOpen := false }
    match s.pendingAction with
    | some a => ({ s1 with pendingAction := none },
        [GateEvent.serviceCall trimmedKey a])
    | none => (s1, [])

/-- Claim C6: every generation action calls the external service only when
a credential is held: with no key the action is deferred as pending and
the key modal opens with no service call; every call the dispatch does
emit carries the held key; the deferred action runs only on submission of
a key with non-empty trim, and then with exactly that trimmed key; and the
submitted credential is written to the session store only — the local
face store is never touched by the key flow. -/
theorem generation_requires_credential (s : GateState) (a : GenAction)
    (newApiKey : String) :
    (s.apiKey = none → dispatchGenAction s a =
      ({ s with pendingAction := some a, isApiKeyModalOpen := true }, [])) ∧
    (∀ k, s.apiKey = some k →
      dispatchGenAction s a = (s, [GateEvent.serviceCall k a])) ∧
    (∀ e, e ∈ (dispatchGenAction s a).2 →
      ∃ k, s.apiKey = some k ∧ e = GateEvent.serviceCall k a) ∧
    ((dispatchGenAction s a).1.sessionKey = s.sessionKey ∧
      (dispatchGenAction s a).1.localFaces = s.localFaces) ∧
    ((jsTrim newApiKey) = "" → handleApiKeySubmit s newApiKey = (s, [])) ∧
    ((jsTrim newApiKey) ≠ "" →
      (handleApiKeySubmit s newApiKey).1.apiKey = some (jsTrim newApiKey) ∧
      (handleApiKeySubmit s newApiKey).1.sessionKey = some (jsTrim newApiKey) ∧
      (handleApiKeySubmit s newApiKey).1.isApiKeyModalOpen = false ∧
      (handleApiKeySubmit s newApiKey).1.localFaces = s.localFaces ∧
      (handleApiKeySubmit s newApiKey).2 =
        (match s.pendingAction with
         | some a2 => [GateEvent.serviceCall (jsTrim newApiKey) a2]
         | none => [])) := by
  refine ⟨?_, ?_, ?_, ?_, ?_, ?_⟩
  · intro h; simp [dispatchGenAction, h]
  · intro k h; simp [dispatchGenAction, h]
  · intro e he
    cases hk : s.apiKey with
    | none => simp [dispatchGenAction, hk] at he
    | some k =>
        simp [dispatchGenAction, hk] at he
        exact ⟨k, rfl, he⟩
  · cases hk : s.apiKey <;> simp [dispatchGenAction, hk]
  · intro h; simp [handleApiKeySubmit, h]
  · intro h
    cases hp : s.pendingAction <;>
      simp [handleApiKeySubmit, h, hp]

/-- Claim C6 witness: with no key held, the filter action is deferred and
the modal opens with no service call; submitting " k1 " then runs the
pending action with the trimmed key "k1". -/
theorem generation_requires_credential_witness :
    dispatchGenAction ⟨none, none, false, none, []⟩ GenAction.filter =
      (⟨none, some GenAction.filter, true, none, []⟩, []) ∧
    (handleApiKeySubmit ⟨none, some GenAction.filter, true, none, []⟩
      " k1 ").2 = [GateEvent.serviceCall "k1" GenAction.filter] := by
  have h1 := generation_requires_credential
    ⟨none, none, false, none, []⟩ GenAction.filter " k1 "
  have h2 := generation_requires_credential
    ⟨none, some GenAction.filter, true, none, []⟩ GenAction.filter " k1 "
  refine ⟨h1.1 rfl, ?_⟩
  have h3 := (h2.2.2.2.2.2 (by decide)).2.2.2.2
  rw [h3]
  decide

/-- A JavaScript `File`: byte contents, name, and MIME type. -/
structure JsFile where
  bytes : List Nat
  name : String
  mime : String
  deriving Repr, DecidableEq

/-- Split a character list at every comma: JavaScript
`String.prototype.split(',')`. -/
def splitOnComma (l : List Char) : List (List Char) :=
  match l with
  | [] => [[]]
  | c :: cs =>
    let r := splitOnComma cs
    if c = ',' then [] :: r
    else
      match r with
      | h :: t => (c :: h) :: t
      | [] => [[c]]

/-- JavaScript `dataurl.split(',')`. -/
def jsSplitComma (s : String) : List String :=
  (splitOnComma s.data).map (fun cs => ⟨cs⟩)

/-- Whether a character matches `.` in a JavaScript regex without the `s`
flag: anything but a line terminator. -/
def regexDot (c : Char) : Bool :=
  !(c == '\n' || c == '\r' || c == '\u2028' || c == '\u2029')

/-- After a `:`, the lazy `(.*?);` part of `/:(.*?);/`: the shortest run
of non-terminator characters up to a `;`. -/
def mimeCaptureAfterColon : List Char → Option (List Char)
  | [] => none
  | c :: cs =>
    if c = ';' then some []
    else if regexDot c then (mimeCaptureAfterColon cs).map (c :: ·)
    else none

/-- The capture group of `arr[0].match(/:(.*?);/)` (src/App.tsx:23): at
the first `:` from which `(.*?);` matches, the characters between that `:`
and the following `;`; on failure there the engine retries from the next
position. -/
def mimeCapture : List Char → Option (List Char)
  | [] => none
  | c :: cs =>
    if c = ':' then
      match mimeCaptureAfterColon cs with
      | some cap => some cap
      | none => mimeCapture cs
    else mimeCapture cs

/-- The 6-bit value of a base64 alphabet character. -/
def b64Val (c : Char) : Option Nat :=
  if 'A' ≤ c ∧ c ≤ 'Z' then some (c.toNat - 65)
  else if 'a' ≤ c ∧ c ≤ 'z' then some (c.toNat - 71)
  else if '0' ≤ c ∧ c ≤ '9' then some (c.toNat + 4)
  else if c = '+' then some 62
  else if c = '/' then some 63
  else none

/-- Reassemble 6-bit groups (length 0, 2 or 3 mod 4) into bytes. -/
def b64Quant : List Nat → List Nat
  | a :: b :: c :: d :: rest =>
      (a * 4 + b / 16) :: ((b % 16) * 16 + c / 4) :: ((c % 4) * 64 + d) ::
        b64Quant rest
  | [a, b] => [a * 4 + b / 16]
  | [a, b, c] => [a * 4 + b / 16, (b % 16) * 16 + c / 4]
  | _ => []

/-- Remove one trailing `=`. -/
def dropTrailingEq (l : List Char) : List Char :=
  match l.getLast? with
  | some '=' => l.dropLast
  | _ => l

/-- JavaScript `atob`, the forgiving-base64 decode: strip ASCII
whitespace, strip up to two trailing `=` when the length divides by 4,
fail (a DOMException) on a leftover length of 1 mod 4 or any non-alphabet
character, and otherwise emit the decoded bytes. -/
def atob (s : String) : Option (List Nat) :=
  let data := s.data.filter (fun c =>
    !(c == ' ' || c == '\t' || c == '\n' || c == '\x0c' || c == '\r'))
  let data :=
    if data.length % 4 = 0 then dropTrailingEq (dropTrailingEq data)
    else data
  if data.length % 4 = 1 then none
  else (data.mapM b64Val).map b64Quant

/-- `dataURLtoFile` (src/App.tsx:20-34): split on commas and throw
"Invalid data URL" when there is no payload part; match the MIME type with
`/:(.*?);/` and throw "Could not parse MIME type from data URL" when the
match fails or captures the empty (falsy) string; `atob` the second part
(an invalid base64 payload throws a DOMException, modelled as the
"InvalidCharacterError" error) and build the `File` from its bytes.  The
`Except.error` value carries the thrown message. -/
def dataURLtoFile (dataurl : String) (filename : String) :
    Except String JsFile :=
  let arr := jsSplitComma dataurl
  if arr.length < 2 then Except.error "Invalid data URL"
  else
    match mimeCapture (arr.headD "").data with
    | none => Except.error "Could not parse MIME type from data URL"
    | some [] => Except.error "Could not parse MIME type from data URL"
    | some mimeChars =>
      match atob (arr.getD 1 "") with
      | none => Except.error "InvalidCharacterError"
      | some bstr =>
          Except.ok { bytes := bstr, name := filename, mime := ⟨mimeChars⟩ }

/-- Claim C7: an input that is not a well-formed data URL fails fast
rather than returning a file: with no comma-separated payload part the
conversion throws "Invalid data URL", and with a payload but a header from
which no MIME type parses (the `/:(.*?);/` match fails, or its capture is
empty) it throws "Could not parse MIME type from data URL". -/
theorem dataURLtoFile_rejects_malformed (s fname : String) :
    ((jsSplitComma s).length < 2 →
      dataURLtoFile s fname = Except.error "Invalid data URL") ∧
    (2 ≤ (jsSplitComma s).length →
      (mimeCapture ((jsSplitComma s).headD "").data = none ∨
        mimeCapture ((jsSplitComma s).headD "").data = some []) →
      dataURLtoFile s fname =
        Except.error "Could not parse MIME type from data URL") := by
  constructor
  · intro h
    simp only [dataURLtoFile]
    rw [if_pos h]
  · intro h1 h2
    simp only [dataURLtoFile]
    rw [if_neg (by omega)]
    rcases h2 with h2 | h2 <;> rw [h2]

/-- Claim C7 witness: "notadataurl" (no comma) throws "Invalid data URL",
and "data:," (no `;`-terminated MIME in the header) throws "Could not
parse MIME type from data URL". -/
theorem dataURLtoFile_rejects_malformed_witness :
    dataURLtoFile "notadataurl" "f.png" = Except.error "Invalid data URL" ∧
    dataURLtoFile "data:," "f.png" =
      Except.error "Could not parse MIME type from data URL" := by
  constructor
  · exact (dataURLtoFile_rejects_malformed "notadataurl" "f.png").1
      (by decide)
  · exact (dataURLtoFile_rejects_malformed "data:," "f.png").2 (by decide)
      (Or.inl (by decide))

/-- Assignment to `canvas.width` / `canvas.height` (WebIDL `unsigned
long`): the JS number is truncated toward zero and taken mod 2^32. -/
def toUint32 (q : ℚ) : Nat :=
  ((if q < 0 then ⌈q⌉ else ⌊q⌋) % (2 ^ 32 : Int)).toNat

theorem toUint32_zero : toUint32 0 = 0 := by
  simp [toUint32]

/-- `canvas.toDataURL('image/png')` (HTML canvas spec): a canvas one of
whose dimensions is zero has no pixels and yields the string "data:,";
otherwise a PNG data URL whose base64 payload is the encoder's output on
the drawn pixels, abstracted here as `payload`. -/
def canvasToDataURL (width height : Nat) (payload : String) : String :=
  if width = 0 ∨ height = 0 then "data:,"
  else "data:image/png;base64," ++ payload

/-- The possible outcomes of running `handleApplyCrop`: an error surfaced
via `setError` (handler returns early), an uncaught exception thrown by
`dataURLtoFile` (the handler has no try/catch), or a successful append.
The carried state is the resulting history. -/
inductive CropOutcome where
  | errored (s : HistState JsFile) (message : String)
  | thrown (s : HistState JsFile) (message : String)
  | applied (s : HistState JsFile)
  deriving Repr, DecidableEq

/-- The history after the crop attempt. -/
def CropOutcome.historyOf : CropOutcome → HistState JsFile
  | .errored s _ => s
  | .thrown s _ => s
  | .applied s => s

/-- Whether the crop attempt appended a new artifact. -/
def CropOutcome.didApply : CropOutcome → Bool
  | .applied _ => true
  | _ => false

/-- `handleApplyCrop` (src/App.tsx:243-285): with no completed crop or no
image element it sets the error "Please select an area to crop." and
returns; with no 2d canvas context it sets "Could not process the crop.";
otherwise it sets the canvas dimensions to the selection size times
`pixelRatio`, draws, converts the canvas to a data URL, runs the result
through `dataURLtoFile` (whose exceptions propagate uncaught), and appends
the file to the history. -/
def handleApplyCrop (completedCrop : Option PixelCrop)
    (imgLoaded ctxOk : Bool) (pixelRatio : ℚ) (payload fname : String)
    (s : HistState JsFile) : CropOutcome :=
  match completedCrop with
  | none => CropOutcome.errored s "Please select an area to crop."
  | some c =>
    if !imgLoaded then
      CropOutcome.errored s "Please select an area to crop."
    else if !ctxOk then
      CropOutcome.errored s "Could not process the crop."
    else
      let croppedImageUrl :=
        canvasToDataURL (toUint32 (c.width * pixelRatio))
          (toUint32 (c.height * pixelRatio)) payload
      match dataURLtoFile croppedImageUrl fname with
      | Except.error msg => CropOutcome.thrown s msg
      | Except.ok newImageFile =>
          CropOutcome.applied (addImageToHistory newImageFile s)

/-- A selection with a zero dimension renders through a zero-area canvas,
whose data URL is "data:,". -/
theorem canvas_zero_dim (w h pr : ℚ) (payload : String)
    (hz : w = 0 ∨ h = 0) :
    canvasToDataURL (toUint32 (w * pr)) (toUint32 (h * pr)) payload =
      "data:," := by
  rcases hz with hz | hz <;> rw [hz, zero_mul] <;>
    simp [canvasToDataURL, toUint32_zero]

/-- The conversion of the zero-area canvas's "data:," output throws. -/
theorem dataURLtoFile_dataComma (fname : String) :
    dataURLtoFile "data:," fname =
      Except.error "Could not parse MIME type from data URL" := rfl

/-- Claim C4: applying a crop with no selected region fails with the
user-visible error "Please select an area to crop." and appends nothing to
the history, and a selection with zero width or zero height is rejected
rather than producing a new artifact: zero width keeps the Apply Crop
control disabled, and in either degenerate case no invocation of the
handler ever appends — the zero-area canvas renders to "data:,", whose
conversion throws "Could not parse MIME type from data URL" before
`addImageToHistory` — so the history is left unchanged. -/
theorem crop_empty_selection_rejected (imgLoaded ctxOk isLoading : Bool)
    (pixelRatio : ℚ) (payload fname : String) (s : HistState JsFile)
    (c : PixelCrop) :
    handleApplyCrop none imgLoaded ctxOk pixelRatio payload fname s =
      CropOutcome.errored s "Please select an area to crop." ∧
    (c.width = 0 → isCropping (some c) = false ∧
      applyCropEnabled isLoading (some c) = false) ∧
    (c.width = 0 ∨ c.height = 0 →
      (handleApplyCrop (some c) imgLoaded ctxOk pixelRatio payload fname
        s).historyOf = s ∧
      (handleApplyCrop (some c) imgLoaded ctxOk pixelRatio payload fname
        s).didApply = false) ∧
    (imgLoaded = true → ctxOk = true → c.height = 0 →
      handleApplyCrop (some c) imgLoaded ctxOk pixelRatio payload fname s =
        CropOutcome.thrown s "Could not parse MIME type from data URL") := by
  refine ⟨rfl, ?_, ?_, ?_⟩
  · intro hw
    exact ⟨by simp [isCropping, hw],
      by simp [applyCropEnabled, isCropping, hw]⟩
  · intro hz
    cases imgLoaded with
    | false =>
        simp [handleApplyCrop, CropOutcome.historyOf, CropOutcome.didApply]
    | true =>
      cases ctxOk with
      | false =>
          simp [handleApplyCrop, CropOutcome.historyOf,
            CropOutcome.didApply]
      | true =>
          simp only [handleApplyCrop, Bool.not_true, Bool.false_eq_true,
            if_false]
          rw [canvas_zero_dim c.width c.height pixelRatio payload hz,
            dataURLtoFile_dataComma]
          exact ⟨rfl, rfl⟩
  · intro h1 h2 hh
    subst h1
    subst h2
    simp only [handleApplyCrop, Bool.not_true, Bool.false_eq_true,
      if_false]
    rw [canvas_zero_dim c.width c.height pixelRatio payload (Or.inr hh),
      dataURLtoFile_dataComma]

/-- Claim C4 witness: no selection errors and leaves the empty history
alone; a zero-width 0x50 selection keeps the control disabled; a
zero-height 100x0 selection appends nothing: its conversion throws. -/
theorem crop_empty_selection_rejected_witness :
    handleApplyCrop none true true 1 "iVBOR" "cropped.png"
      (initHist JsFile) =
      CropOutcome.errored (initHist JsFile)
        "Please select an area to crop." ∧
    isCropping (some ⟨0, 0, 0, 50⟩) = false ∧
    (handleApplyCrop (some ⟨0, 0, 100, 0⟩) true true 1 "iVBOR"
      "cropped.png" (initHist JsFile)).didApply = false ∧
    handleApplyCrop (some ⟨0, 0, 100, 0⟩) true true 1 "iVBOR"
      "cropped.png" (initHist JsFile) =
      CropOutcome.thrown (initHist JsFile)
        "Could not parse MIME type from data URL" := by
  have h := crop_empty_selection_rejected true true false 1 "iVBOR"
    "cropped.png" (initHist JsFile) ⟨0, 0, 100, 0⟩
  have h2 := crop_empty_selection_rejected true true false 1 "iVBOR"
    "cropped.png" (initHist JsFile) ⟨0, 0, 0, 50⟩
  exact ⟨h.1, (h2.2.1 rfl).1, (h.2.2.1 (Or.inr rfl)).2,
    h.2.2.2 rfl rfl rfl⟩

end RopeMack
